import Mathlib

/-!
Verification of the Uniswap V3 position-valuation engine
(`src/defi_protocols/UniswapV3.py`).

Modelling conventions:
* Python arbitrary-precision `int` is embedded as `ℤ` (addresses as `ℕ`).
* Python `Decimal` values are embedded as exact rationals `ℚ`.  The source
  runs `Decimal` under its default 28-significant-digit context; every
  concrete input used in a theorem below is small enough that the real
  `Decimal` arithmetic is exact there, so this idealisation does not change
  any settled verdict.
* `int(...)` applied to a `Decimal` truncates toward zero; embedded as
  `pyTrunc`.  The final `float(...)` conversion of the human-scaled output
  (lines 173-174) is likewise idealised as the exact rational.
* `Decimal` division with a zero divisor raises an exception in the source
  (`decimal.DivisionByZero`, or `InvalidOperation` when the numerator is
  zero as well); both are embedded as the single fault `Fault.divByZero`,
  and fallible code returns `Except`.
* The square-root price bounds `sa`, `sb` (lines 150-151 of the source) are
  transcendental decimal powers `Decimal(1.0001) ** Decimal(tick / 2)`;
  they are passed as explicit `ℚ` parameters standing for those computed
  values, since a transcendental power has no exact executable embedding.
* The chain reader (web3 calls) is abstracted: the already-decoded on-chain
  fields are explicit arguments.
-/

set_option maxRecDepth 8000

namespace UniswapV3

/-- Ethereum addresses, abstracted as naturals. -/
abbrev Addr := ℕ

/-- Python `int(...)` applied to an exact number: truncation toward zero
(floor for non-negative values, ceiling for negative ones). -/
def pyTrunc (q : ℚ) : ℤ := if q < 0 then ⌈q⌉ else ⌊q⌋

/-- Reduction modulo `2 ^ 256` (always a value in `[0, 2 ^ 256)`). -/
def m256 (x : ℤ) : ℤ := x % (2 ^ 256)

/-- A decimal division with a zero divisor raises an exception in the
source; no other numeric fault is reachable in the embedded fragment. -/
inductive Fault where
  | divByZero
deriving DecidableEq, Repr

/-- Raised by `PositionNFT.__post_init__` (line 115) when the queried wallet
does not own the NFT; the class is called `NFTOwnerError` in the source
(the spec names it `NotOwnedError`). -/
inductive NFTOwnerError where
  | notOwner
deriving DecidableEq, Repr

/-- The slice `positions(nftid)[2:10]` of the NFT manager answer
(line 117): token0, token1, fee, tickLower, tickUpper, liquidity,
feeGrowthInside0LastX128, feeGrowthInside1LastX128. -/
structure PositionFields where
  token0 : Addr
  token1 : Addr
  fee : ℕ
  il : ℤ
  iu : ℤ
  liquidity : ℤ
  fr0 : ℤ
  fr1 : ℤ
deriving DecidableEq, Repr

/-- The `PositionNFT` dataclass after `__post_init__` succeeded
(lines 70-121).  `liquidity` is stored by the source as `Decimal(liquidity)`
of the on-chain integer; we keep the exact integer value. -/
structure PositionNFT where
  token0 : Addr
  token1 : Addr
  fee : ℕ
  il : ℤ
  iu : ℤ
  liquidity : ℤ
  fr0 : ℤ
  fr1 : ℤ
  decimals : Bool
  decimals0 : ℕ
  decimals1 : ℕ
deriving DecidableEq, Repr

/-- The record assembled by a successful `__post_init__` from the fetched
fields (lines 117-121): the decimals are looked up only when the
human-scaling flag is set. -/
def fetchedRecord (p : PositionFields) (decimals : Bool) (d0 d1 : ℕ) :
    PositionNFT :=
  { token0 := p.token0, token1 := p.token1, fee := p.fee,
    il := p.il, iu := p.iu, liquidity := p.liquidity,
    fr0 := p.fr0, fr1 := p.fr1, decimals := decimals,
    decimals0 := if decimals then d0 else 0,
    decimals1 := if decimals then d1 else 0 }

/-- `PositionNFT.__post_init__` (lines 111-121) as a fallible constructor:
`nftOwner` is the chain answer to `ownerOf(nftid)`, `p` the decoded
`positions` tuple, `d0`/`d1` the decimals fetched when the `decimals` flag
is set.  The source performs no validation beyond the ownership check; in
particular the tick range is never inspected. -/
def mkPositionNFT (wallet nftOwner : Addr) (p : PositionFields)
    (decimals : Bool) (d0 d1 : ℕ) : Except NFTOwnerError PositionNFT :=
  if nftOwner ≠ wallet then .error .notOwner
  else .ok (fetchedRecord p decimals d0 d1)

/-- The fee-growth-inside value computed by `get_fees` for one token
(lines 124-135 plus the parenthesised numerator of line 137):
`fg - fee_lower - fee_upper` where `fee_lower` is `folow` when `ic >= il`
and `fg - folow` otherwise, and `fee_upper` is `fg - foup` when `ic >= iu`
and `foup` otherwise.  The subtractions are plain unbounded-integer
subtractions: the source applies no reduction modulo `2 ^ 256`. -/
def feeGrowthInsideCode (il iu ic fg folow foup : ℤ) : ℤ :=
  fg - (if il ≤ ic then folow else fg - folow) -
    (if iu ≤ ic then fg - foup else foup)

/-- `PositionNFT.get_fees` (lines 123-140).  Lines 137-138:
`int(Decimal((fg - fee_lower - fee_upper - fr) * liquidity) / Decimal(2 ** 128))`;
the numerator is integer arithmetic, the division is decimal, and the final
`int` truncates toward zero. -/
def get_fees (pos : PositionNFT) (ic fg0 fg1 fo0low fo1low fo0up fo1up : ℤ) :
    ℤ × ℤ :=
  let fa := pyTrunc
    ((((feeGrowthInsideCode pos.il pos.iu ic fg0 fo0low fo0up - pos.fr0) *
        pos.liquidity : ℤ) : ℚ) / 2 ^ 128)
  let fb := pyTrunc
    ((((feeGrowthInsideCode pos.il pos.iu ic fg1 fo1low fo1up - pos.fr1) *
        pos.liquidity : ℤ) : ℚ) / 2 ^ 128)
  (fa, fb)

/-- The regime selection of `get_balance` (lines 153-167): the quadruple
`(amount0, amount0fee, amount1, amount1fee)` picked by the `if`/`elif`/`else`
ladder, with the source clamping of a negative fee only in the two
structural-zero branches.  A zero decimal divisor raises, embedded as
`Fault.divByZero`. -/
def regimeAmounts (pos : PositionNFT) (ic : ℤ) (sp sa sb : ℚ) (fa fb : ℤ) :
    Except Fault (ℚ × ℤ × ℚ × ℤ) :=
  if pos.iu ≤ ic then
    .ok (0, if 0 < fa then fa else 0, (pos.liquidity : ℚ) * (sb - sa), fb)
  else if pos.il < ic ∧ ic < pos.iu then
    if sp * sb = 0 then .error .divByZero
    else .ok ((pos.liquidity : ℚ) * (sb - sp) / (sp * sb), fa,
      (pos.liquidity : ℚ) * (sp - sa), fb)
  else
    if sa * sb = 0 then .error .divByZero
    else .ok ((pos.liquidity : ℚ) * (sb - sa) / (sa * sb), fa, 0,
      if 0 < fb then fb else 0)

/-- The output conversion of one amount (lines 172-177): divide by
`10 ** decimals` when human scaling is requested, otherwise truncate with
`int(...)`. -/
def convertAmount (decimals : Bool) (d : ℕ) (a : ℚ) : ℚ :=
  if decimals then a / 10 ^ d else ((pyTrunc a : ℤ) : ℚ)

/-- The list construction of `get_balance` (lines 179-183): append the
token0 entry when its converted amount is strictly positive, then the
token1 entry under the same test. -/
def buildBalances (pos : PositionNFT) (amount0 amount1 : ℚ) :
    List (Addr × ℚ) :=
  (if 0 < convertAmount pos.decimals pos.decimals0 amount0 then
      [(pos.token0, convertAmount pos.decimals pos.decimals0 amount0)] else []) ++
    (if 0 < convertAmount pos.decimals pos.decimals1 amount1 then
      [(pos.token1, convertAmount pos.decimals pos.decimals1 amount1)] else [])

/-- `PositionNFT.get_balance` (lines 142-184).  `fees` is `None` or the
pair produced by `get_fees`; `sp` is the current square-root price; `sa`,
`sb` stand for the decimal powers of lines 150-151 (see the module
docstring).  With zero liquidity the whole body is skipped and the empty
list is returned. -/
def get_balance (pos : PositionNFT) (ic : ℤ) (sp : ℚ)
    (fees : Option (ℤ × ℤ)) (sa sb : ℚ) : Except Fault (List (Addr × ℚ)) :=
  if pos.liquidity = 0 then .ok []
  else
    match regimeAmounts pos ic sp sa sb (fees.getD (0, 0)).1 (fees.getD (0, 0)).2 with
    | .error e => .error e
    | .ok r => .ok (buildBalances pos (r.1 + (r.2.1 : ℚ)) (r.2.2.1 + (r.2.2.2 : ℚ)))

/-- Pool-side state read by `underlying` (lines 226-233). -/
structure PoolState where
  currentTick : ℤ
  sqrtPriceX96 : ℕ
  feeGrowthGlobal0 : ℤ
  feeGrowthGlobal1 : ℤ
  foLow0 : ℤ
  foLow1 : ℤ
  foUp0 : ℤ
  foUp1 : ℤ
deriving DecidableEq, Repr

/-- The `underlying` entry point (lines 187-247), with the chain reader
abstracted into explicit arguments: `nftOwner` is `ownerOf(nftid)`, `p` the
decoded position tuple, `pool` the pool-side reads, `d0`/`d1` the token
decimals.  An `NFTOwnerError` raised during construction is caught and
turned into the empty list (lines 217-220); any decimal fault of
`get_balance` propagates. -/
def underlying (wallet nftOwner : Addr) (p : PositionFields)
    (pool : PoolState) (decimals feeFlag : Bool) (d0 d1 : ℕ) (sa sb : ℚ) :
    Except Fault (List (Addr × ℚ)) :=
  match mkPositionNFT wallet nftOwner p decimals d0 d1 with
  | .error _ => .ok []
  | .ok pos =>
      let current_square_price : ℚ := (pool.sqrtPriceX96 : ℚ) / 2 ^ 96
      let fees : Option (ℤ × ℤ) :=
        if feeFlag then
          some (get_fees pos pool.currentTick pool.feeGrowthGlobal0
            pool.feeGrowthGlobal1 pool.foLow0 pool.foLow1 pool.foUp0 pool.foUp1)
        else none
      get_balance pos pool.currentTick current_square_price fees sa sb

/-- `get_rate_uniswap_v3` (lines 250-295): square the decoded square-root
price, invert it when the source token is not the canonical `token0`
(raising on a zero price), then divide by `10 ** (decimals_dst - decimals_src)`.
The negative-exponent power and the final `float(...)` conversion are
idealised as exact rationals. -/
def get_rate_uniswap_v3 (sqrtPriceX96 : ℕ) (srcIsToken0 : Bool)
    (srcDecimals dstDecimals : ℕ) : Except Fault ℚ :=
  let current_price : ℚ := ((sqrtPriceX96 : ℚ) / 2 ^ 96) ^ 2
  if srcIsToken0 then
    .ok (current_price / (10 : ℚ) ^ ((dstDecimals : ℤ) - (srcDecimals : ℤ)))
  else if current_price = 0 then .error .divByZero
  else .ok ((1 / current_price) / (10 : ℚ) ^ ((dstDecimals : ℤ) - (srcDecimals : ℤ)))

/-- Modelled from the spec (§4.2): the reference fee-growth-inside
algorithm, with every subtraction reduced modulo `2 ^ 256`. -/
def feeGrowthInsideSpec (il iu ic fg folow foup : ℤ) : ℤ :=
  let feeBelow := if il ≤ ic then folow else m256 (fg - folow)
  let feeAbove := if iu ≤ ic then m256 (fg - foup) else foup
  m256 (fg - feeBelow - feeAbove)

/-- Modelled from the spec (§4.3): the unclaimed fee
`floor((feeGrowthInside - feeGrowthInsideLast mod 2 ^ 256) * liquidity / 2 ^ 128)`
(floor division, wraparound-safe checkpoint subtraction). -/
def unclaimedFeeSpec (inside last liquidity : ℤ) : ℤ :=
  Int.fdiv (m256 (inside - last) * liquidity) (2 ^ 128)

/-- Modelled from the spec (§4.5): `price = sqrtPrice ^ 2`, inverted when
the source token is not the canonical `token0`, then divided by
`10 ^ (decimals_dst - decimals_src)`. -/
def spotRateSpec (sqrtPrice : ℚ) (srcIsToken0 : Bool)
    (srcDecimals dstDecimals : ℕ) : ℚ :=
  (if srcIsToken0 then sqrtPrice ^ 2 else (sqrtPrice ^ 2)⁻¹) /
    (10 : ℚ) ^ ((dstDecimals : ℤ) - (srcDecimals : ℤ))

/-! ### Helper lemmas -/

theorem pyTrunc_eq_of_nonneg (q : ℚ) (z : ℤ) (h0 : 0 ≤ q) (h1 : (z : ℚ) ≤ q)
    (h2 : q < (z : ℚ) + 1) : pyTrunc q = z := by
  unfold pyTrunc
  rw [if_neg (not_lt.mpr h0)]
  exact Int.floor_eq_iff.mpr ⟨h1, h2⟩

theorem pyTrunc_eq_of_neg (q : ℚ) (z : ℤ) (h0 : q < 0) (h1 : (z : ℚ) - 1 < q)
    (h2 : q ≤ (z : ℚ)) : pyTrunc q = z := by
  unfold pyTrunc
  rw [if_pos h0]
  exact Int.ceil_eq_iff.mpr ⟨h1, h2⟩

theorem regimeAmounts_below (pos : PositionNFT) (ic : ℤ) (sp sa sb : ℚ)
    (fa fb : ℤ) (h : pos.iu ≤ ic) :
    regimeAmounts pos ic sp sa sb fa fb =
      .ok (0, if 0 < fa then fa else 0, (pos.liquidity : ℚ) * (sb - sa), fb) := by
  unfold regimeAmounts
  rw [if_pos h]

theorem regimeAmounts_inRange (pos : PositionNFT) (ic : ℤ) (sp sa sb : ℚ)
    (fa fb : ℤ) (h1 : pos.il < ic) (h2 : ic < pos.iu) (hd : sp * sb ≠ 0) :
    regimeAmounts pos ic sp sa sb fa fb =
      .ok ((pos.liquidity : ℚ) * (sb - sp) / (sp * sb), fa,
        (pos.liquidity : ℚ) * (sp - sa), fb) := by
  unfold regimeAmounts
  rw [if_neg (not_le.mpr h2), if_pos ⟨h1, h2⟩, if_neg hd]

theorem regimeAmounts_inRange_fault (pos : PositionNFT) (ic : ℤ)
    (sp sa sb : ℚ) (fa fb : ℤ) (h1 : pos.il < ic) (h2 : ic < pos.iu)
    (hd : sp * sb = 0) :
    regimeAmounts pos ic sp sa sb fa fb = .error .divByZero := by
  unfold regimeAmounts
  rw [if_neg (not_le.mpr h2), if_pos ⟨h1, h2⟩, if_pos hd]

theorem regimeAmounts_above (pos : PositionNFT) (ic : ℤ) (sp sa sb : ℚ)
    (fa fb : ℤ) (h3 : ic ≤ pos.il) (hrange : pos.il < pos.iu)
    (hd : sa * sb ≠ 0) :
    regimeAmounts pos ic sp sa sb fa fb =
      .ok ((pos.liquidity : ℚ) * (sb - sa) / (sa * sb), fa, 0,
        if 0 < fb then fb else 0) := by
  unfold regimeAmounts
  rw [if_neg (not_le.mpr (lt_of_le_of_lt h3 hrange)),
    if_neg (fun hc => absurd (lt_of_le_of_lt h3 hc.1) (lt_irrefl _)),
    if_neg hd]

theorem get_balance_of_regime (pos : PositionNFT) (ic : ℤ) (sp : ℚ)
    (fees : Option (ℤ × ℤ)) (sa sb : ℚ) (a0 : ℚ) (f0 : ℤ) (a1 : ℚ) (f1 : ℤ)
    (hL : pos.liquidity ≠ 0)
    (hr : regimeAmounts pos ic sp sa sb (fees.getD (0, 0)).1
      (fees.getD (0, 0)).2 = .ok (a0, f0, a1, f1)) :
    get_balance pos ic sp fees sa sb =
      .ok (buildBalances pos (a0 + (f0 : ℚ)) (a1 + (f1 : ℚ))) := by
  unfold get_balance
  rw [if_neg hL]
  simp only [hr]

theorem get_balance_of_regime_fault (pos : PositionNFT) (ic : ℤ) (sp : ℚ)
    (fees : Option (ℤ × ℤ)) (sa sb : ℚ) (hL : pos.liquidity ≠ 0)
    (hr : regimeAmounts pos ic sp sa sb (fees.getD (0, 0)).1
      (fees.getD (0, 0)).2 = .error .divByZero) :
    get_balance pos ic sp fees sa sb = .error .divByZero := by
  unfold get_balance
  rw [if_neg hL]
  simp only [hr]

theorem get_balance_zero_liquidity (pos : PositionNFT) (ic : ℤ) (sp : ℚ)
    (fees : Option (ℤ × ℤ)) (sa sb : ℚ) (h : pos.liquidity = 0) :
    get_balance pos ic sp fees sa sb = .ok [] := by
  unfold get_balance
  rw [if_pos h]

theorem regimeAmounts_error_cases (pos : PositionNFT) (ic : ℤ) (sp sa sb : ℚ)
    (fa fb : ℤ) (f : Fault)
    (h : regimeAmounts pos ic sp sa sb fa fb = .error f) :
    sp * sb = 0 ∨ sa * sb = 0 := by
  unfold regimeAmounts at h
  split_ifs at h with h1 h2 h3 h4
  · exact Or.inl h3
  · exact Or.inr h4

theorem get_fees_fst (pos : PositionNFT) (ic fg0 fg1 a b c d : ℤ) :
    (get_fees pos ic fg0 fg1 a b c d).1 =
      pyTrunc ((((feeGrowthInsideCode pos.il pos.iu ic fg0 a c - pos.fr0) *
        pos.liquidity : ℤ) : ℚ) / 2 ^ 128) := rfl

theorem buildBalances_eval (pos : PositionNFT) (a0 a1 b0 b1 : ℚ)
    (h0 : convertAmount pos.decimals pos.decimals0 a0 = b0)
    (h1 : convertAmount pos.decimals pos.decimals1 a1 = b1) :
    buildBalances pos a0 a1 =
      (if 0 < b0 then [(pos.token0, b0)] else []) ++
        (if 0 < b1 then [(pos.token1, b1)] else []) := by
  unfold buildBalances
  rw [h0, h1]

theorem buildBalances_shape (pos : PositionNFT) (a0 a1 : ℚ) :
    (∀ e ∈ buildBalances pos a0 a1, 0 < e.2) ∧
    (buildBalances pos a0 a1).length ≤ 2 ∧
    List.Sublist ((buildBalances pos a0 a1).map Prod.fst)
      [pos.token0, pos.token1] ∧
    (pos.token0 ≠ pos.token1 → ((buildBalances pos a0 a1).map Prod.fst).Nodup) := by
  unfold buildBalances
  by_cases h0 : 0 < convertAmount pos.decimals pos.decimals0 a0 <;>
    by_cases h1 : 0 < convertAmount pos.decimals pos.decimals1 a1
  · rw [if_pos h0, if_pos h1]
    refine ⟨?_, by simp, List.Sublist.refl _, fun hne => by simp [hne]⟩
    intro e he
    simp only [List.cons_append, List.nil_append, List.mem_cons,
      List.not_mem_nil, or_false] at he
    rcases he with rfl | rfl
    · exact h0
    · exact h1
  · rw [if_pos h0, if_neg h1]
    refine ⟨?_, by simp, (List.nil_sublist [pos.token1]).cons₂ pos.token0,
      fun _ => by simp⟩
    intro e he
    simp only [List.append_nil, List.mem_singleton] at he
    rw [he]
    exact h0
  · rw [if_neg h0, if_pos h1]
    refine ⟨?_, by simp, (List.Sublist.refl [pos.token1]).cons pos.token0,
      fun _ => by simp⟩
    intro e he
    simp only [List.nil_append, List.mem_singleton] at he
    rw [he]
    exact h1
  · rw [if_neg h0, if_neg h1]
    exact ⟨by simp, by simp, by simp, fun _ => by simp⟩

/-! ### Concrete instances used in counterexamples and witnesses -/

/-- A live in-range position: range `[-5, 5)`, liquidity 6, human scaling
requested with zero decimals on both tokens. -/
def posW : PositionNFT :=
  { token0 := 10, token1 := 11, fee := 500, il := -5, iu := 5, liquidity := 6,
    fr0 := 0, fr1 := 0, decimals := true, decimals0 := 0, decimals1 := 0 }

/-- A position with unit liquidity and a zero fee checkpoint, for the
unclaimed-fee computation. -/
def posC2 : PositionNFT :=
  { token0 := 1, token1 := 2, fee := 3000, il := 0, iu := 5, liquidity := 1,
    fr0 := 0, fr1 := 0, decimals := false, decimals0 := 0, decimals1 := 0 }

/-- A closed position (liquidity 0). -/
def posZ : PositionNFT :=
  { token0 := 10, token1 := 11, fee := 500, il := -5, iu := 5, liquidity := 0,
    fr0 := 0, fr1 := 0, decimals := true, decimals0 := 0, decimals1 := 0 }

/-- Fetched position fields with an inverted tick range (`tickLower = 5`,
`tickUpper = 3`). -/
def fieldsC8 : PositionFields :=
  { token0 := 10, token1 := 11, fee := 500, il := 5, iu := 3, liquidity := 42,
    fr0 := 0, fr1 := 0 }

/-- Fetched position fields with zero liquidity. -/
def fieldsZ : PositionFields :=
  { token0 := 10, token1 := 11, fee := 500, il := -5, iu := 5, liquidity := 0,
    fr0 := 0, fr1 := 0 }

/-- A bland pool snapshot. -/
def poolW : PoolState :=
  { currentTick := 0, sqrtPriceX96 := 2 ^ 96, feeGrowthGlobal0 := 0,
    feeGrowthGlobal1 := 0, foLow0 := 0, foLow1 := 0, foUp0 := 0, foUp1 := 0 }

/-! ### Claim theorems -/

/-- C1 (code bug): with range `[0, 5)`, current tick `10`, global growth
`100`, outside-lower `60` and outside-upper `10`, the code computes the
fee-growth-inside value `fou - fol = -50` by plain integer subtraction and
leaves it negative, whereas the §4.2 reference algorithm wraps it to
`2 ^ 256 - 50`: `get_fees` does not perform the claimed wraparound-safe
modular subtraction. -/
theorem get_fees_inside_not_modular :
    feeGrowthInsideCode 0 5 10 100 60 10 = -50 ∧
    feeGrowthInsideSpec 0 5 10 100 60 10 = 2 ^ 256 - 50 ∧
    feeGrowthInsideCode 0 5 10 100 60 10 ≠
      feeGrowthInsideSpec 0 5 10 100 60 10 := by
  refine ⟨by decide, by decide, by decide⟩

/-- C2 (code bug): at the same snapshot, for a position with liquidity `1`
and zero checkpoint, the code returns unclaimed fee `0` for token0 (the
negative non-wrapped difference `-50` is scaled and truncated toward zero),
whereas the §4.3 formula with wraparound-safe modular subtraction yields
`2 ^ 128 - 1`. -/
theorem get_fees_unclaimed_fee_not_modular :
    (get_fees posC2 10 100 100 60 60 10 10).1 = 0 ∧
    unclaimedFeeSpec (feeGrowthInsideSpec posC2.il posC2.iu 10 100 60 10)
      posC2.fr0 posC2.liquidity = 2 ^ 128 - 1 ∧
    (get_fees posC2 10 100 100 60 60 10 10).1 ≠
      unclaimedFeeSpec (feeGrowthInsideSpec posC2.il posC2.iu 10 100 60 10)
        posC2.fr0 posC2.liquidity := by
  have h1 : (get_fees posC2 10 100 100 60 60 10 10).1 = 0 := by
    rw [get_fees_fst]
    have hin : feeGrowthInsideCode posC2.il posC2.iu 10 100 60 10 = -50 := by
      decide
    rw [hin]
    have hq : (((-50 - posC2.fr0) * posC2.liquidity : ℤ) : ℚ) / 2 ^ 128 =
        -(50 / 2 ^ 128) := by
      norm_num [posC2]
    rw [hq]
    apply pyTrunc_eq_of_neg <;> norm_num
  have h2 : unclaimedFeeSpec (feeGrowthInsideSpec posC2.il posC2.iu 10 100 60 10)
      posC2.fr0 posC2.liquidity = 2 ^ 128 - 1 := by decide
  refine ⟨h1, h2, ?_⟩
  rw [h1, h2]
  decide

/-- C4 (confirmed): with zero liquidity, `get_balance` returns the empty
list whatever the tick, price, fee and flag inputs are, and `underlying`
likewise returns the empty valuation for a position record whose fetched
liquidity is zero. -/
theorem zero_liquidity_empty_valuation (pos : PositionNFT) (ic : ℤ) (sp : ℚ)
    (fees : Option (ℤ × ℤ)) (sa sb : ℚ) (wallet nftOwner : Addr)
    (p : PositionFields) (pool : PoolState) (decimals feeFlag : Bool)
    (d0 d1 : ℕ) (sa2 sb2 : ℚ) (h : pos.liquidity = 0)
    (hp : p.liquidity = 0) :
    get_balance pos ic sp fees sa sb = .ok [] ∧
    underlying wallet nftOwner p pool decimals feeFlag d0 d1 sa2 sb2 =
      .ok [] := by
  refine ⟨get_balance_zero_liquidity pos ic sp fees sa sb h, ?_⟩
  by_cases how : nftOwner = wallet
  · unfold underlying mkPositionNFT
    rw [if_neg (by simp [how])]
    exact get_balance_zero_liquidity _ _ _ _ _ _ hp
  · unfold underlying mkPositionNFT
    rw [if_pos how]

/-- Witness for C4 at a concrete closed position. -/
theorem zero_liquidity_empty_valuation_witness :
    get_balance posZ 0 2 none 1 3 = .ok [] ∧
    underlying 1 1 fieldsZ poolW true true 0 0 1 3 = .ok [] :=
  zero_liquidity_empty_valuation posZ 0 2 none 1 3 1 1 fieldsZ poolW true true
    0 0 1 3 rfl rfl

/-- C5 (confirmed): when the on-chain owner differs from the queried
wallet, record construction fails with the ownership error, and
`underlying` catches it and returns the empty list (an `.ok` value, not a
fault). -/
theorem not_owner_empty_valuation (wallet nftOwner : Addr)
    (p : PositionFields) (pool : PoolState) (decimals feeFlag : Bool)
    (d0 d1 : ℕ) (sa sb : ℚ) (h : nftOwner ≠ wallet) :
    mkPositionNFT wallet nftOwner p decimals d0 d1 = .error .notOwner ∧
    underlying wallet nftOwner p pool decimals feeFlag d0 d1 sa sb =
      .ok [] := by
  have hm : mkPositionNFT wallet nftOwner p decimals d0 d1 =
      .error .notOwner := by
    unfold mkPositionNFT
    rw [if_pos h]
  refine ⟨hm, ?_⟩
  unfold underlying
  rw [hm]

/-- Witness for C5 at a concrete non-owner query. -/
theorem not_owner_empty_valuation_witness :
    mkPositionNFT 1 2 fieldsC8 true 0 0 = .error .notOwner ∧
    underlying 1 2 fieldsC8 poolW true true 0 0 1 3 = .ok [] :=
  not_owner_empty_valuation 1 2 fieldsC8 poolW true true 0 0 1 3 (by decide)

/-- C8 (counterexample): fetched data with `tickLower = 5 >= 3 = tickUpper`
is accepted silently: construction succeeds with no error of any kind (the
source has no range validation and no `InvalidRangeError`). -/
theorem invalid_range_accepted :
    fieldsC8.iu ≤ fieldsC8.il ∧
    mkPositionNFT 1 1 fieldsC8 false 0 0 = .ok (fetchedRecord fieldsC8 false 0 0) ∧
    (fetchedRecord fieldsC8 false 0 0).il = 5 ∧
    (fetchedRecord fieldsC8 false 0 0).iu = 3 := by
  refine ⟨by decide, rfl, by decide, by decide⟩

/-- C8 (amended): record construction validates only ownership; whenever
the owner matches the wallet it succeeds and stores the fetched fields
verbatim, regardless of the tick ordering. -/
theorem mkPositionNFT_no_range_validation (wallet nftOwner : Addr)
    (p : PositionFields) (decimals : Bool) (d0 d1 : ℕ)
    (h : nftOwner = wallet) :
    mkPositionNFT wallet nftOwner p decimals d0 d1 =
      .ok (fetchedRecord p decimals d0 d1) := by
  unfold mkPositionNFT
  rw [if_neg (by simp [h])]

/-- Witness for the amended C8: an inverted range is constructed without
complaint. -/
theorem mkPositionNFT_no_range_validation_witness :
    mkPositionNFT 7 7 fieldsC8 true 8 9 = .ok (fetchedRecord fieldsC8 true 8 9) :=
  mkPositionNFT_no_range_validation 7 7 fieldsC8 true 8 9 rfl

/-- C3 (confirmed): for a live position with a valid range, `get_balance`
realises exactly the three mutually exclusive regimes of the §4.4 table on
the pre-fee reserves: `iu <= ic` gives `(0, L * (sb - sa))`,
`il < ic < iu` gives `(L * (sb - sp) / (sp * sb), L * (sp - sa))`, and
`ic <= il` gives `(L * (sb - sa) / (sa * sb), 0)`; the fee contributions
are then added (clamped only on the structural-zero side) and the result
converted and filtered.  All arithmetic is exact rational arithmetic in
this embedding. -/
theorem get_balance_regime_table (pos : PositionNFT) (ic : ℤ) (sp sa sb : ℚ)
    (fa fb : ℤ) (hrange : pos.il < pos.iu) (hL : pos.liquidity ≠ 0) :
    (pos.iu ≤ ic →
      get_balance pos ic sp (some (fa, fb)) sa sb =
        .ok (buildBalances pos ((0 : ℚ) + ((if 0 < fa then fa else 0 : ℤ) : ℚ))
          ((pos.liquidity : ℚ) * (sb - sa) + (fb : ℚ)))) ∧
    (pos.il < ic → ic < pos.iu → sp * sb ≠ 0 →
      get_balance pos ic sp (some (fa, fb)) sa sb =
        .ok (buildBalances pos
          ((pos.liquidity : ℚ) * (sb - sp) / (sp * sb) + (fa : ℚ))
          ((pos.liquidity : ℚ) * (sp - sa) + (fb : ℚ)))) ∧
    (ic ≤ pos.il → sa * sb ≠ 0 →
      get_balance pos ic sp (some (fa, fb)) sa sb =
        .ok (buildBalances pos
          ((pos.liquidity : ℚ) * (sb - sa) / (sa * sb) + (fa : ℚ))
          ((0 : ℚ) + ((if 0 < fb then fb else 0 : ℤ) : ℚ)))) := by
  refine ⟨fun h => ?_, fun h1 h2 hd => ?_, fun h3 hd => ?_⟩
  · exact get_balance_of_regime pos ic sp (some (fa, fb)) sa sb _ _ _ _ hL
      (regimeAmounts_below pos ic sp sa sb fa fb h)
  · exact get_balance_of_regime pos ic sp (some (fa, fb)) sa sb _ _ _ _ hL
      (regimeAmounts_inRange pos ic sp sa sb fa fb h1 h2 hd)
  · exact get_balance_of_regime pos ic sp (some (fa, fb)) sa sb _ _ _ _ hL
      (regimeAmounts_above pos ic sp sa sb fa fb h3 hrange hd)

/-- Witness for C3: the in-range regime at a concrete snapshot
(`L = 6`, `sa = 1`, `sp = 2`, `sb = 3`, fees `(5, 6)`):
`token0 = 6 * (3 - 2) / (2 * 3) + 5 = 6`, `token1 = 6 * (2 - 1) + 6 = 12`. -/
theorem get_balance_regime_table_witness :
    get_balance posW 0 2 (some (5, 6)) 1 3 = .ok [(10, 6), (11, 12)] := by
  rw [(get_balance_regime_table posW 0 2 1 3 5 6 (by decide) (by decide)).2.1
    (by decide) (by decide) (by norm_num)]
  norm_num [buildBalances, convertAmount, posW]

/-- C6 (counterexample): at an in-range snapshot with a negative token0 fee
input, the token0 entry is omitted even though its final amount is `-99`,
not zero: the output omits every non-positive final amount, not exactly the
zero ones. -/
theorem get_balance_omits_negative_final_amount :
    get_balance posW 0 2 (some (-100, 0)) 1 3 = .ok [(11, 6)] ∧
    convertAmount posW.decimals posW.decimals0
      ((posW.liquidity : ℚ) * (3 - 2) / (2 * 3) + ((-100 : ℤ) : ℚ)) = -99 ∧
    (-99 : ℚ) ≠ 0 := by
  refine ⟨?_, by norm_num [convertAmount, posW], by norm_num⟩
  rw [get_balance_of_regime posW 0 2 (some (-100, 0)) 1 3 _ _ _ _ (by decide)
    (regimeAmounts_inRange posW 0 2 1 3 (-100) 0 (by decide) (by decide)
      (by norm_num))]
  norm_num [buildBalances, convertAmount, posW]

/-- C6 (amended): for a live position, the returned list contains the
token0 entry exactly when its final converted amount (regime reserve plus
fee contribution) is strictly positive, and likewise for token1; every
token whose final amount is zero **or negative** is omitted.  A positive
fee can therefore still turn a structural zero reserve into a reported
entry. -/
theorem get_balance_positive_entry_filter (pos : PositionNFT) (ic : ℤ)
    (sp : ℚ) (fees : Option (ℤ × ℤ)) (sa sb : ℚ) (a0 : ℚ) (f0 : ℤ) (a1 : ℚ)
    (f1 : ℤ) (hL : pos.liquidity ≠ 0)
    (hr : regimeAmounts pos ic sp sa sb (fees.getD (0, 0)).1
      (fees.getD (0, 0)).2 = .ok (a0, f0, a1, f1)) :
    get_balance pos ic sp fees sa sb =
      .ok ((if 0 < convertAmount pos.decimals pos.decimals0 (a0 + (f0 : ℚ))
          then [(pos.token0,
            convertAmount pos.decimals pos.decimals0 (a0 + (f0 : ℚ)))]
          else []) ++
        (if 0 < convertAmount pos.decimals pos.decimals1 (a1 + (f1 : ℚ))
          then [(pos.token1,
            convertAmount pos.decimals pos.decimals1 (a1 + (f1 : ℚ)))]
          else [])) := by
  rw [get_balance_of_regime pos ic sp fees sa sb a0 f0 a1 f1 hL hr]
  rfl

/-- Witness for the amended C6: below-range regime with fees `(5, 6)`; the
structural zero token0 reserve is turned into the reported entry `(10, 5)`
by the positive fee, and token1 reports `6 * (3 - 1) + 6 = 18`. -/
theorem get_balance_positive_entry_filter_witness :
    get_balance posW 7 2 (some (5, 6)) 1 3 = .ok [(10, 5), (11, 18)] := by
  rw [get_balance_positive_entry_filter posW 7 2 (some (5, 6)) 1 3 _ _ _ _
    (by decide) (regimeAmounts_below posW 7 2 1 3 5 6 (by decide))]
  norm_num [convertAmount, posW]

/-- C7 (counterexample): a zero current square-root price faults the
in-range division although both square-root bounds are non-zero: the
claimed "only `sa == 0` or `sb == 0`" fault condition is wrong, the
snapshot price is a third source. -/
theorem get_balance_fault_at_zero_price :
    get_balance posW 0 0 none 1 3 = .error .divByZero ∧
    (1 : ℚ) ≠ 0 ∧ (3 : ℚ) ≠ 0 := by
  refine ⟨?_, by norm_num, by norm_num⟩
  exact get_balance_of_regime_fault posW 0 0 none 1 3 (by decide)
    (regimeAmounts_inRange_fault posW 0 0 1 3 0 0 (by decide) (by decide)
      (by norm_num))

/-- C7 (amended): a division-by-zero fault of `get_balance` implies
`sa = 0`, `sb = 0` or `sp = 0` — the in-range divisor is `sp * sb` and the
above-range divisor is `sa * sb`, and no other division can fault. -/
theorem get_balance_fault_characterisation (pos : PositionNFT) (ic : ℤ)
    (sp : ℚ) (fees : Option (ℤ × ℤ)) (sa sb : ℚ) (f : Fault)
    (h : get_balance pos ic sp fees sa sb = .error f) :
    sa = 0 ∨ sb = 0 ∨ sp = 0 := by
  by_cases hL : pos.liquidity = 0
  · rw [get_balance_zero_liquidity pos ic sp fees sa sb hL] at h
    exact absurd h (by simp)
  · unfold get_balance at h
    rw [if_neg hL] at h
    rcases hE : regimeAmounts pos ic sp sa sb (fees.getD (0, 0)).1
        (fees.getD (0, 0)).2 with e | r
    · rcases regimeAmounts_error_cases pos ic sp sa sb (fees.getD (0, 0)).1
          (fees.getD (0, 0)).2 e hE with hc | hc
      · rcases mul_eq_zero.mp hc with h0 | h0
        · exact Or.inr (Or.inr h0)
        · exact Or.inr (Or.inl h0)
      · rcases mul_eq_zero.mp hc with h0 | h0
        · exact Or.inl h0
        · exact Or.inr (Or.inl h0)
    · rw [hE] at h
      simp at h

/-- Witness for the amended C7: the zero-price fault instance satisfies the
disjunction through its third limb. -/
theorem get_balance_fault_characterisation_witness :
    (1 : ℚ) = 0 ∨ (3 : ℚ) = 0 ∨ (0 : ℚ) = 0 :=
  get_balance_fault_characterisation posW 0 0 none 1 3 .divByZero
    (get_balance_of_regime_fault posW 0 0 none 1 3 (by decide)
      (regimeAmounts_inRange_fault posW 0 0 1 3 0 0 (by decide) (by decide)
        (by norm_num)))

/-- C9 (confirmed): for a non-zero pool price, the rate function returns
exactly the spec formula: the squared decoded square-root price, inverted
when the source token is not the canonical `token0`, divided — not
multiplied — by `10 ^ (decimals_dst - decimals_src)`. -/
theorem get_rate_matches_spec (sqrtPriceX96 : ℕ) (srcIsToken0 : Bool)
    (srcDecimals dstDecimals : ℕ) (h : sqrtPriceX96 ≠ 0) :
    get_rate_uniswap_v3 sqrtPriceX96 srcIsToken0 srcDecimals dstDecimals =
      .ok (spotRateSpec ((sqrtPriceX96 : ℚ) / 2 ^ 96) srcIsToken0
        srcDecimals dstDecimals) := by
  have hp : ((sqrtPriceX96 : ℚ) / 2 ^ 96) ^ 2 ≠ 0 := by
    apply pow_ne_zero
    apply div_ne_zero
    · exact_mod_cast h
    · norm_num
  unfold get_rate_uniswap_v3 spotRateSpec
  cases srcIsToken0
  · simp only [Bool.false_eq_true, if_false]
    rw [if_neg hp, one_div]
  · rfl

/-- Witness for C9: a pool at price 9 queried in the inverted direction
with decimals 6 and 18 yields `(1 / 9) / 10 ^ 12`. -/
theorem get_rate_matches_spec_witness :
    get_rate_uniswap_v3 (3 * 2 ^ 96) false 6 18 = .ok (1 / 9000000000000) := by
  rw [get_rate_matches_spec (3 * 2 ^ 96) false 6 18 (by norm_num)]
  norm_num [spotRateSpec]

/-- C10 (confirmed): every successfully returned list has only strictly
positive amounts, has at most two entries, lists the token0 entry before
the token1 entry (the key sequence is a sublist of `[token0, token1]`),
and, when the two token addresses differ, has at most one entry per
token. -/
theorem get_balance_shape_invariant (pos : PositionNFT) (ic : ℤ) (sp : ℚ)
    (fees : Option (ℤ × ℤ)) (sa sb : ℚ) (l : List (Addr × ℚ))
    (h : get_balance pos ic sp fees sa sb = .ok l) :
    (∀ e ∈ l, 0 < e.2) ∧ l.length ≤ 2 ∧
    List.Sublist (l.map Prod.fst) [pos.token0, pos.token1] ∧
    (pos.token0 ≠ pos.token1 → (l.map Prod.fst).Nodup) := by
  by_cases hL : pos.liquidity = 0
  · rw [get_balance_zero_liquidity pos ic sp fees sa sb hL] at h
    have hl : l = [] := by
      injection h with h2
      exact h2.symm
    subst hl
    exact ⟨by simp, by simp, by simp, fun _ => by simp⟩
  · unfold get_balance at h
    rw [if_neg hL] at h
    rcases hE : regimeAmounts pos ic sp sa sb (fees.getD (0, 0)).1
        (fees.getD (0, 0)).2 with e | r
    · rw [hE] at h
      simp at h
    · rw [hE] at h
      simp only [Except.ok.injEq] at h
      subst h
      exact buildBalances_shape pos _ _

/-- Witness for C10: the below-range snapshot with no fees reports only
the token1 entry `(11, 12)`. -/
theorem get_balance_shape_invariant_witness :
    (∀ e ∈ [((11 : Addr), (12 : ℚ))], 0 < e.2) ∧
    ([((11 : Addr), (12 : ℚ))]).length ≤ 2 ∧
    List.Sublist ([((11 : Addr), (12 : ℚ))].map Prod.fst)
      [posW.token0, posW.token1] ∧
    (posW.token0 ≠ posW.token1 →
      ([((11 : Addr), (12 : ℚ))].map Prod.fst).Nodup) := by
  apply get_balance_shape_invariant posW 7 2 none 1 3
  rw [get_balance_of_regime posW 7 2 none 1 3 _ _ _ _ (by decide)
    (regimeAmounts_below posW 7 2 1 3 0 0 (by decide))]
  norm_num [buildBalances, convertAmount, posW]

end UniswapV3
